import Mathlib

/-!
Shallow embedding of `src/document_analyzer.py` (class `DocumentAnalyzer`)
from the google-docs-mcp repository, together with theorems settling the
frozen claims about its text-analysis engine.

Python strings are modelled as Lean `String` / `List Char`; Python `float`
arithmetic in the derived ratios is modelled with exact rationals `ℚ`
(no claim below depends on binary floating-point rounding artefacts);
Python's `round(x, n)` (round-half-to-even) is modelled by `pyRoundN`.
Fallible dictionary access (`d[k]` on a possibly missing key) is modelled
with `Except String`.
-/

namespace DocAnalyzer

/-- Characters treated as whitespace by Python's `str.split()` / `str.strip()`
(the `str.isspace` set: ASCII whitespace, the C1 separator controls, and the
Unicode space/separator code points). -/
def isPySpace (c : Char) : Bool :=
  let n := c.toNat
  (9 ≤ n && n ≤ 13) || (28 ≤ n && n ≤ 31) || n = 32 || n = 133 || n = 160 ||
    n = 5760 || (8192 ≤ n && n ≤ 8202) || n = 8232 || n = 8233 || n = 8239 ||
    n = 8287 || n = 12288

/-- Model of Python `str.lower()` on one character (ASCII case mapping; the
source text in every claim is ASCII). -/
def pyLowerChar (c : Char) : Char := c.toLower

/-- Model of Python `str.lower()` on a character list. -/
def pyLower (l : List Char) : List Char := l.map pyLowerChar

/-- Model of Python `str.strip()` on a character list: drop leading and
trailing whitespace. -/
def stripL (l : List Char) : List Char :=
  ((l.dropWhile isPySpace).reverse.dropWhile isPySpace).reverse

/-- Model of Python `str.strip()` on a `String`. -/
def pyStrip (s : String) : String := String.mk (stripL s.toList)

/-- Accumulator loop for whitespace splitting (Python `str.split()` with no
argument: split on runs of whitespace, discarding empty tokens). `acc` holds
the current token reversed. -/
def splitWSAux : List Char → List Char → List (List Char)
  | [], acc => if acc.isEmpty then [] else [acc.reverse]
  | c :: rest, acc =>
    if isPySpace c then
      if acc.isEmpty then splitWSAux rest []
      else acc.reverse :: splitWSAux rest []
    else splitWSAux rest (c :: acc)

/-- Model of Python `str.split()` (no argument). -/
def splitWS (l : List Char) : List (List Char) := splitWSAux l []

/-- Word list of a string, as Python `s.split()`. -/
def pyWords (s : String) : List String := (splitWS s.toList).map String.mk

/-- Accumulator loop for Python `str.split(sep)` with a one-character
separator: empty segments are kept, and the empty string yields one empty
segment. -/
def splitSepAux (sep : Char) : List Char → List Char → List (List Char)
  | [], acc => [acc.reverse]
  | c :: rest, acc =>
    if c = sep then acc.reverse :: splitSepAux sep rest []
    else splitSepAux sep rest (c :: acc)

/-- Model of Python `str.split(sep)` for a one-character separator. -/
def splitSep (sep : Char) (l : List Char) : List (List Char) := splitSepAux sep l []

/-- Accumulator loop for Python `str.split(sep)` with a two-character
separator (used for `'\n\n'`): leftmost non-overlapping occurrences split the
string, empty segments are kept. -/
def splitSep2Aux (a b : Char) : List Char → List Char → List (List Char)
  | [], acc => [acc.reverse]
  | [c], acc => [(c :: acc).reverse]
  | c :: d :: rest, acc =>
    if c = a && d = b then acc.reverse :: splitSep2Aux a b rest []
    else splitSep2Aux a b (d :: rest) (c :: acc)

/-- Model of Python `str.split(sep)` for a two-character separator. -/
def splitSep2 (a b : Char) (l : List Char) : List (List Char) := splitSep2Aux a b l []

/-- The sentence-delimiter characters of the regex `[.!?]+`. -/
def isSentencePunct (c : Char) : Bool := c = '.' || c = '!' || c = '?'

/-- Accumulator loop for `re.split(r'[.!?]+', s)`: split on maximal runs of
sentence punctuation, keeping empty segments. `inRun` records whether the
previous character belonged to a punctuation run. -/
def splitPunctAux : List Char → List Char → Bool → List (List Char)
  | [], acc, _ => [acc.reverse]
  | c :: rest, acc, inRun =>
    if isSentencePunct c then
      if inRun then splitPunctAux rest acc true
      else acc.reverse :: splitPunctAux rest [] true
    else splitPunctAux rest (c :: acc) false

/-- Model of `re.split(r'[.!?]+', s)`. -/
def splitPunct (l : List Char) : List (List Char) := splitPunctAux l [] false

/-- Model of Python's built-in `round` to an integer: round half to even. -/
def roundHalfEven (q : ℚ) : ℤ :=
  if 2 * (q - ⌊q⌋) = 1 then (if ⌊q⌋ % 2 = 0 then ⌊q⌋ else ⌊q⌋ + 1)
  else round q

/-- Model of Python `round(x, 2)`. -/
def pyRound2 (q : ℚ) : ℚ := (roundHalfEven (q * 100) : ℚ) / 100

/-- Model of Python `round(x, 1)`. -/
def pyRound1 (q : ℚ) : ℚ := (roundHalfEven (q * 10) : ℚ) / 10

/-- Result record of `_calculate_statistics`. -/
structure Statistics where
  characterCount : Nat
  characterCountNoSpaces : Nat
  wordCount : Nat
  lineCount : Nat
  paragraphCount : Nat
  sentenceCount : Nat
  averageWordLength : ℚ
  averageSentenceLength : ℚ
  readingTime : ℚ
  deriving Repr, DecidableEq

/-- Body of `_calculate_statistics` after `clean_text = text.strip()`:
all counts are computed from the cleaned character list. -/
def statisticsOfClean (clean : List Char) : Statistics :=
  let charCount := clean.length
  let charCountNoSpaces := (clean.filter (fun c => !(c = ' ' || c = '\n'))).length
  let words := splitWS clean
  let wordCount := words.length
  let lines := splitSep '\n' clean
  let lineCount := lines.length
  let paragraphs := (splitSep2 '\n' '\n' clean).filter (fun p => !(stripL p).isEmpty)
  let paragraphCount := paragraphs.length
  let sentences := (splitPunct clean).filter (fun s => !(stripL s).isEmpty)
  let sentenceCount := sentences.length
  let avgWordLength : ℚ :=
    if wordCount > 0 then ((words.map List.length).sum : ℚ) / (wordCount : ℚ) else 0
  let avgSentenceLength : ℚ :=
    if sentenceCount > 0 then (wordCount : ℚ) / (sentenceCount : ℚ) else 0
  { characterCount := charCount
    characterCountNoSpaces := charCountNoSpaces
    wordCount := wordCount
    lineCount := lineCount
    paragraphCount := paragraphCount
    sentenceCount := sentenceCount
    averageWordLength := pyRound2 avgWordLength
    averageSentenceLength := pyRound2 avgSentenceLength
    readingTime := pyRound1 ((wordCount : ℚ) / 200) }

/-- Embedding of `DocumentAnalyzer._calculate_statistics`. -/
def calculate_statistics (text : String) : Statistics :=
  statisticsOfClean (stripL text.toList)

/-- Characters matched by the regex class `\w` (word characters): letters,
digits, and underscore (ASCII model). -/
def isWordChar (c : Char) : Bool := c.isAlpha || c.isDigit || c = '_'

/-- The fixed stop-word set of `_extract_keywords`, transcribed from the
source in order. -/
def stop_words : List String :=
  ["the", "be", "to", "of", "and", "a", "in", "that", "have", "i",
   "it", "for", "not", "on", "with", "he", "as", "you", "do", "at",
   "this", "but", "his", "by", "from", "they", "we", "say", "her", "she",
   "or", "an", "will", "my", "one", "all", "would", "there", "their",
   "what", "so", "up", "out", "if", "about", "who", "get", "which", "go",
   "me", "when", "make", "can", "like", "time", "no", "just", "him", "know",
   "take", "people", "into", "year", "your", "good", "some", "could", "them",
   "see", "other", "than", "then", "now", "look", "only", "come", "its", "over",
   "think", "also", "back", "after", "use", "two", "how", "our", "work",
   "first", "well", "way", "even", "new", "want", "because", "any", "these",
   "give", "day", "most", "us", "is", "was", "are", "been", "has", "had",
   "were", "said", "did", "having", "may", "should"]

/-- First-seen-order deduplication, with an explicit list of already seen
elements. Models the key order of a Python `Counter` / the order of
`list(set(...))` (CPython set iteration order is implementation-defined;
no claim depends on it). -/
def dedupSeen {α : Type} [BEq α] : List α → List α → List α
  | [], _ => []
  | x :: xs, seen =>
    if seen.contains x then dedupSeen xs seen else x :: dedupSeen xs (x :: seen)

/-- First-seen-order deduplication of a list. -/
def dedupFirstSeen {α : Type} [BEq α] (l : List α) : List α := dedupSeen l []

/-- Stable descending insertion by count: the new item goes before the first
strictly smaller count, hence after all items of equal count. -/
def insertDescByCount (x : String × Nat) : List (String × Nat) → List (String × Nat)
  | [] => [x]
  | y :: ys => if x.2 > y.2 then x :: y :: ys else y :: insertDescByCount x ys

/-- Stable descending sort by count, as performed by
`Counter.most_common` (equivalent to `sorted(..., reverse=True)` on counts,
stable on ties by first-seen order). -/
def sortDescByCount (l : List (String × Nat)) : List (String × Nat) :=
  l.foldl (fun acc x => insertDescByCount x acc) []

/-- One keyword entry of `_extract_keywords`. -/
structure Keyword where
  keyword : String
  frequency : Nat
  relevance : ℚ
  deriving Repr, DecidableEq

/-- Retained tokens of `_extract_keywords`: lowercase the text, replace every
character that is neither a word character nor whitespace by a space
(`re.sub(r'[^\w\s]', ' ', text.lower())`), split on whitespace, keep tokens
of length > 3 that are not stop words. -/
def retainedTokens (text : String) : List String :=
  let clean := (pyLower text.toList).map
    (fun c => if isWordChar c || isPySpace c then c else ' ')
  let words := (splitWS clean).map String.mk
  words.filter (fun w => w.length > 3 && !(stop_words.contains w))

/-- Embedding of `DocumentAnalyzer._extract_keywords`. -/
def extract_keywords (text : String) (top_n : Nat := 20) : List Keyword :=
  let keywords := retainedTokens text
  let freqItems := (dedupFirstSeen keywords).map (fun w => (w, keywords.count w))
  let topKeywords := (sortDescByCount freqItems).take top_n
  topKeywords.map (fun p =>
    { keyword := p.1, frequency := p.2,
      relevance := pyRound2 ((p.2 : ℚ) / (keywords.length : ℚ) * 100) })

/-- Retained sentences of `_generate_summary`: split on `[.!?]+` runs, strip
each segment, keep those whose stripped length exceeds 20. -/
def retained_sentences (text : String) : List String :=
  ((splitPunct text.toList).map (fun s => String.mk (stripL s))).filter
    (fun s => s.length > 20)

/-- Sentence score of `_generate_summary`:
`len(words) * (1 - i / len(sentences) * 0.5)`. -/
def sentenceScore (total : Nat) (i : Nat) (s : String) : ℚ :=
  ((pyWords s).length : ℚ) * (1 - (i : ℚ) / (total : ℚ) * (1 / 2))

/-- Stable descending insertion by score (first tuple component). -/
def insertDescByScore (x : ℚ × String) : List (ℚ × String) → List (ℚ × String)
  | [] => [x]
  | y :: ys => if x.1 > y.1 then x :: y :: ys else y :: insertDescByScore x ys

/-- Stable descending sort by score, as `list.sort(reverse=True, key=...)`. -/
def sortDescByScore (l : List (ℚ × String)) : List (ℚ × String) :=
  l.foldl (fun acc x => insertDescByScore x acc) []

/-- Final selection loop of `_generate_summary`: walk the retained sentences
in original order, keep those occurring in `top`, and stop as soon as
`maxS` sentences have been collected. -/
def collectInOrder (maxS : Nat) (top : List String) : List String → List String → List String
  | [], acc => acc.reverse
  | s :: rest, acc =>
    if top.contains s then
      if (s :: acc).length ≥ maxS then (s :: acc).reverse
      else collectInOrder maxS top rest (s :: acc)
    else collectInOrder maxS top rest acc

/-- Embedding of `DocumentAnalyzer._generate_summary`. -/
def generate_summary (text : String) (max_sentences : Nat := 5) : String :=
  let sentences := retained_sentences text
  if sentences.length ≤ max_sentences then
    String.intercalate ". " sentences ++ "."
  else
    let scored := (sentences.take 50).enum.map
      (fun p => (sentenceScore sentences.length p.1 p.2, p.2))
    let sorted := sortDescByScore scored
    let top := (sorted.take max_sentences).map Prod.snd
    String.intercalate ". " (collectInOrder max_sentences top sentences []) ++ "."

/-- Characters matched by one iteration of the URL regex body
`(?:[a-zA-Z]|[0-9]|[$-_@.&+]|[!*\(\),]|(?:%[0-9a-fA-F][0-9a-fA-F]))`.
The class `[$-_@.&+]` is the code-point range 0x24 to 0x5F (which already
contains `%`, so the percent-escape alternative adds no further characters
to the matched language). -/
def isUrlChar (c : Char) : Bool :=
  c.isAlpha || c.isDigit || (36 ≤ c.toNat && c.toNat ≤ 95) ||
    c = '!' || c = '*' || c = '\\' || c = '(' || c = ')' || c = ','

/-- Attempt to match the URL regex at the head of `l`; on success return the
matched characters and the remainder. The optional `s` is tried greedily
first, as the regex engine does. -/
def matchUrlAt (l : List Char) : Option (List Char × List Char) :=
  let tryScheme : List Char → Option (List Char × List Char) := fun pre =>
    if l.take pre.length = pre then
      let rest := l.drop pre.length
      let run := rest.takeWhile isUrlChar
      if run.isEmpty then none else some (pre ++ run, rest.drop run.length)
    else none
  match tryScheme "https://".toList with
  | some r => some r
  | none => tryScheme "http://".toList

/-- Fuelled scan for all non-overlapping URL matches, left to right, as
`re.findall`. The fuel is the length of the remaining input, which the
scan never exceeds. -/
def findUrlsFuel : Nat → List Char → List (List Char)
  | 0, _ => []
  | _ + 1, [] => []
  | fuel + 1, c :: rest =>
    match matchUrlAt (c :: rest) with
    | some (m, rest2) => m :: findUrlsFuel fuel rest2
    | none => findUrlsFuel fuel rest

/-- Model of `re.findall(url_pattern, text)`. -/
def findall_urls (l : List Char) : List (List Char) := findUrlsFuel l.length l

/-- Fuelled scan counting non-overlapping occurrences of `pat`, left to
right. The fuel is the length of the remaining input, which the scan never
exceeds (every step consumes at least one character). -/
def countOccurFuel (pat : List Char) : Nat → List Char → Nat
  | 0, _ => 0
  | _ + 1, [] => 0
  | fuel + 1, c :: rest =>
    if (c :: rest).take pat.length = pat then
      1 + countOccurFuel pat fuel ((c :: rest).drop (max pat.length 1))
    else countOccurFuel pat fuel rest

/-- Model of Python `text.count(pat)` for a non-empty pattern: count
non-overlapping occurrences, scanning left to right. -/
def countOccur (pat l : List Char) : Nat := countOccurFuel pat l.length l

/-- Scheme component of `urllib.parse.urlparse`, modelled for URLs of the
shape `scheme://netloc...` as produced by the URL regex: the characters
before the first colon. -/
def urlparseScheme (url : List Char) : List Char :=
  url.takeWhile (fun c => c ≠ ':')

/-- Netloc component of `urllib.parse.urlparse`, modelled for URLs of the
shape `scheme://netloc...`: the characters after `://` up to the first
`/`, `?` or `#`. -/
def urlparseNetloc (url : List Char) : List Char :=
  let afterScheme := url.drop ((url.takeWhile (fun c => c ≠ ':')).length + 3)
  afterScheme.takeWhile (fun c => !(c = '/' || c = '?' || c = '#'))

/-- One link entry of `_extract_links` (dict keys `url`, `domain`, `scheme`,
`count`). -/
structure Link where
  url : String
  domain : String
  scheme : String
  count : Nat
  deriving Repr, DecidableEq

/-- Embedding of `DocumentAnalyzer._extract_links`. -/
def extract_links (text : String) : List Link :=
  let urls := findall_urls text.toList
  let uniqueUrls := dedupFirstSeen urls
  uniqueUrls.map (fun u =>
    { url := String.mk u, domain := String.mk (urlparseNetloc u),
      scheme := String.mk (urlparseScheme u), count := countOccur u text.toList })

/-- English marker words of `_detect_language` (source order). -/
def english_words : List String := ["the", "is", "and", "to", "of", "in", "that", "for"]

/-- Spanish marker words of `_detect_language` (source order). -/
def spanish_words : List String := ["el", "la", "de", "que", "y", "en", "es", "por"]

/-- French marker words of `_detect_language` (source order). -/
def french_words : List String := ["le", "de", "un", "et", "être", "à", "il", "que"]

/-- German marker words of `_detect_language` (source order). -/
def german_words : List String := ["der", "die", "und", "in", "den", "von", "zu", "das"]

/-- Unique lowercased whitespace-split words of the text
(`set(text.lower().split())`), kept as a list; membership is all that the
language heuristic consumes. -/
def textWords (text : String) : List String :=
  (splitWS (pyLower text.toList)).map String.mk

/-- Size of the intersection `len(words ∩ langWords)` for a duplicate-free
marker list: the number of marker words occurring in the text words. -/
def langWordCount (langWords : List String) (words : List String) : Nat :=
  (langWords.filter (fun w => words.contains w)).length

/-- The four language intersection counts of `_detect_language`, in source
order: English, Spanish, French, German. -/
def langCounts (text : String) : Nat × Nat × Nat × Nat :=
  let words := textWords text
  (langWordCount english_words words, langWordCount spanish_words words,
   langWordCount french_words words, langWordCount german_words words)

/-- The `if/elif` chain of `_detect_language` on the four counts, including
its unreachable final `return 'unknown'`. -/
def languagePick (en es fr de : Nat) : String :=
  let maxCount := max (max (max en es) fr) de
  if maxCount = 0 then "unknown"
  else if maxCount = en then "en"
  else if maxCount = es then "es"
  else if maxCount = fr then "fr"
  else if maxCount = de then "de"
  else "unknown"

/-- Embedding of `DocumentAnalyzer._detect_language`. -/
def detect_language (text : String) : String :=
  let c := langCounts text
  languagePick c.1 c.2.1 c.2.2.1 c.2.2.2

/-- Modelled from the spec (section 4.5 wording, for comparison with the
code): return the first language in the fixed priority order English,
Spanish, French, German whose intersection count attains the maximum, and
`unknown` when the maximum is zero. -/
def spec_languagePick (en es fr de : Nat) : String :=
  let m := max (max (max en es) fr) de
  if m = 0 then "unknown"
  else if en = m then "en"
  else if es = m then "es"
  else if fr = m then "fr"
  else "de"

/-- Spec-side language detection built on `spec_languagePick`. -/
def spec_detect_language (text : String) : String :=
  let c := langCounts text
  spec_languagePick c.1 c.2.1 c.2.2.1 c.2.2.2

/-- The maximum of the four language intersection counts
(`max(en_count, es_count, fr_count, de_count)`). -/
def langMax (text : String) : Nat :=
  let c := langCounts text
  max (max (max c.1 c.2.1) c.2.2.1) c.2.2.2

/-- Model of Python `str.isupper`: at least one cased character, and no
cased character is lowercase (ASCII letters as the cased characters). -/
def pyIsUpper (s : String) : Bool :=
  s.toList.any (fun c => c.isAlpha) && s.toList.all (fun c => !c.isAlpha || c.isUpper)

/-- Embedding of `DocumentAnalyzer._guess_heading_level`. -/
def guess_heading_level (text : String) : Nat :=
  if pyIsUpper text then 1
  else if (pyWords text).length ≤ 5 then 2
  else 3

/-- One heading entry of `_analyze_structure`. -/
structure Heading where
  text : String
  position : Nat
  level : Nat
  deriving Repr, DecidableEq

/-- One list-item entry of `_analyze_structure` (dict key `type`). -/
structure ListItem where
  text : String
  position : Nat
  type : String
  deriving Repr, DecidableEq

/-- Result record of `_analyze_structure` (dict key `structure` in the
analysis results). -/
structure StructureReport where
  headings : List Heading
  listItems : List ListItem
  hasStructure : Bool
  deriving Repr, DecidableEq

/-- Lines of the text, as Python `text.split('\n')`. -/
def linesOf (text : String) : List String := (splitSep '\n' text.toList).map String.mk

/-- Model of `re.match` for the bullet pattern `^\s*[\-\*\•]\s+`. -/
def matchBullet (l : List Char) : Bool :=
  match l.dropWhile isPySpace with
  | c :: d :: _ => (c = '-' || c = '*' || c = '•') && isPySpace d
  | _ => false

/-- Model of `re.match` for the numbered pattern `^\s*\d+[\.\)]\s+`. -/
def matchNumbered (l : List Char) : Bool :=
  let r := l.dropWhile isPySpace
  let digits := r.takeWhile Char.isDigit
  let rest := r.dropWhile Char.isDigit
  !digits.isEmpty &&
    (match rest with
     | c :: d :: _ => (c = '.' || c = ')') && isPySpace d
     | _ => false)

/-- Model of `re.match` for the lettered pattern `^\s*[a-z][\.\)]\s+`. -/
def matchLettered (l : List Char) : Bool :=
  match l.dropWhile isPySpace with
  | a :: c :: d :: _ =>
    ('a' ≤ a && a ≤ 'z') && (c = '.' || c = ')') && isPySpace d
  | _ => false

/-- Embedding of `DocumentAnalyzer._analyze_structure`: the heading loop and
the list-pattern loop over the line list, with the patterns checked in
source priority order (first match wins; the lettered pattern is also
reported as `numbered`, as in the source). -/
def analyze_structure (text : String) : StructureReport :=
  let lines := linesOf text
  let headings := (List.range lines.length).filterMap (fun i =>
    let stripped := pyStrip (lines.getD i "")
    if 3 < (pyWords stripped).length && (pyWords stripped).length ≤ 10 then
      if i + 1 < lines.length && (pyWords (pyStrip (lines.getD (i + 1) ""))).length > 10 then
        some { text := stripped, position := i, level := guess_heading_level stripped }
      else none
    else none)
  let listItems := (List.range lines.length).filterMap (fun i =>
    let line := lines.getD i ""
    if matchBullet line.toList then
      some { text := pyStrip line, position := i, type := "bullet" }
    else if matchNumbered line.toList then
      some { text := pyStrip line, position := i, type := "numbered" }
    else if matchLettered line.toList then
      some { text := pyStrip line, position := i, type := "numbered" }
    else none)
  { headings := headings, listItems := listItems,
    hasStructure := headings.length > 0 || listItems.length > 0 }

/-- Options bag of `analyze_document`: `options.get(key, default)` is
modelled as a record field carrying the source default. -/
structure AnalysisOptions where
  wordCount : Bool := true
  extractKeywords : Bool := false
  summarize : Bool := false
  extractLinks : Bool := false
  detectLanguage : Bool := false
  deriving Repr, DecidableEq

/-- Result dictionary of `analyze_document`: conditionally present keys are
modelled as `Option` fields; the `structure` key (a Lean keyword) is the
field `structureReport` and is always present. -/
structure AnalysisResults where
  statistics : Option Statistics
  keywords : Option (List Keyword)
  summary : Option String
  links : Option (List Link)
  language : Option String
  structureReport : StructureReport
  deriving Repr, DecidableEq

/-- Embedding of `DocumentAnalyzer.analyze_document`. -/
def analyze_document (text_content : String) (options : AnalysisOptions := {}) :
    AnalysisResults :=
  { statistics := if options.wordCount then some (calculate_statistics text_content) else none
    keywords := if options.extractKeywords then some (extract_keywords text_content) else none
    summary := if options.summarize then some (generate_summary text_content) else none
    links := if options.extractLinks then some (extract_links text_content) else none
    language := if options.detectLanguage then some (detect_language text_content) else none
    structureReport := analyze_structure text_content }

/-- A `textRun` mapping of the document tree: its text content key may be
absent. -/
structure TextRun where
  content : Option String
  deriving Repr, DecidableEq

/-- One paragraph element: the `textRun` key may be absent. -/
structure ParagraphElement where
  textRun : Option TextRun
  deriving Repr, DecidableEq

/-- A paragraph: the `elements` key may be absent. -/
structure Paragraph where
  elements : Option (List ParagraphElement)
  deriving Repr, DecidableEq

/-- One entry of a cell's `content` list: the `paragraph` key may be
absent. -/
structure CellContent where
  paragraph : Option Paragraph
  deriving Repr, DecidableEq

/-- A table cell: the `content` key may be absent. -/
structure TableCell where
  content : Option (List CellContent)
  deriving Repr, DecidableEq

/-- A table row: the `tableCells` key may be absent. -/
structure TableRow where
  tableCells : Option (List TableCell)
  deriving Repr, DecidableEq

/-- A table element: the `tableRows` key may be absent. -/
structure Table where
  tableRows : Option (List TableRow)
  deriving Repr, DecidableEq

/-- One top-level body element: the `table` key may be absent. -/
structure BodyElement where
  table : Option Table
  deriving Repr, DecidableEq

/-- The document body: the `content` key may be absent. -/
structure Body where
  content : Option (List BodyElement)
  deriving Repr, DecidableEq

/-- The document tree handed to `extract_tables`: the `body` key may be
absent. -/
structure DocumentData where
  body : Option Body
  deriving Repr, DecidableEq

/-- Text pieces contributed by one paragraph element: skipped when the
`textRun` key is absent (the `if 'textRun' in element` guard), but
`element['textRun']['content']` raises a KeyError when the textRun lacks
its text content. -/
def textRunContent (e : ParagraphElement) : Except String (List String) :=
  match e.textRun with
  | none => Except.ok []
  | some tr =>
    match tr.content with
    | none => Except.error "KeyError: content"
    | some s => Except.ok [s]

/-- Text pieces contributed by one cell-content entry: skipped when the
`paragraph` key is absent; `paragraph.get('elements', [])` treats a missing
elements key as empty. -/
def cellContentPieces (c : CellContent) : Except String (List String) :=
  match c.paragraph with
  | none => Except.ok []
  | some p => do
    let pieces ← (p.elements.getD []).mapM textRunContent
    pure pieces.flatten

/-- Cell text of `_parse_table`: the concatenation (no separator) of all text
runs, then stripped; `cell.get('content', [])` treats a missing content key
as empty. -/
def parseCellText (cell : TableCell) : Except String String := do
  let pieces ← (cell.content.getD []).mapM cellContentPieces
  pure (pyStrip (String.join pieces.flatten))

/-- Row parsing of `_parse_table`: `row.get('tableCells', [])` treats a
missing tableCells key as empty. -/
def parseRow (row : TableRow) : Except String (List String) :=
  (row.tableCells.getD []).mapM parseCellText

/-- Result record of `_parse_table` (dict keys `rows`, `columns`, `data`). -/
structure TableData where
  rows : Nat
  columns : Nat
  data : List (List String)
  deriving Repr, DecidableEq

/-- Embedding of `DocumentAnalyzer._parse_table`. -/
def parse_table (t : Table) : Except String TableData := do
  let rows ← (t.tableRows.getD []).mapM parseRow
  pure { rows := rows.length, columns := (rows.headD []).length, data := rows }

/-- Embedding of `DocumentAnalyzer.extract_tables`: a missing `body` or
`content` key yields no tables; every body element carrying a `table` key is
parsed. -/
def extract_tables (doc : DocumentData) : Except String (List TableData) :=
  match doc.body with
  | none => Except.ok []
  | some b =>
    match b.content with
    | none => Except.ok []
    | some elems => (elems.filterMap (fun e => e.table)).mapM parse_table

/-- Well-formedness of one paragraph element: if a `textRun` is present it
carries its text content. -/
def runOk (e : ParagraphElement) : Bool :=
  match e.textRun with
  | none => true
  | some tr => tr.content.isSome

/-- Well-formedness of a paragraph: every element is run-ok. -/
def paraOk (p : Paragraph) : Bool := (p.elements.getD []).all runOk

/-- Well-formedness of one cell-content entry. -/
def cellContentOk (c : CellContent) : Bool :=
  match c.paragraph with
  | none => true
  | some p => paraOk p

/-- Well-formedness of a table cell. -/
def cellOk (c : TableCell) : Bool := (c.content.getD []).all cellContentOk

/-- Well-formedness of a table row. -/
def rowOk (r : TableRow) : Bool := (r.tableCells.getD []).all cellOk

/-- Well-formedness of a table element. -/
def tableOk (t : Table) : Bool := (t.tableRows.getD []).all rowOk

/-- Well-formedness of a whole document tree: every textRun present anywhere
in it carries its text content. Keys may otherwise be absent at every
level. -/
def docRunsOk (d : DocumentData) : Bool :=
  match d.body with
  | none => true
  | some b =>
    (b.content.getD []).all (fun e =>
      match e.table with
      | none => true
      | some t => tableOk t)

/-- A document tree with one table whose single cell holds a paragraph
element whose `textRun` mapping lacks its text content. -/
def docBad : DocumentData :=
  ⟨some ⟨some [⟨some ⟨some [⟨some [⟨some [⟨some ⟨some [⟨some ⟨none⟩⟩]⟩⟩]⟩]⟩]⟩⟩]⟩⟩

/-- A document tree exercising a missing key at every level other than a
textRun's content: a body element without a table, a table without
`tableRows`, a row without `tableCells`, a cell without `content`, a cell
content without `paragraph`, a paragraph without `elements`, and an element
without `textRun`. -/
def docSparse : DocumentData :=
  ⟨some ⟨some
    [⟨none⟩,
     ⟨some ⟨none⟩⟩,
     ⟨some ⟨some
       [⟨none⟩,
        ⟨some [⟨none⟩,
               ⟨some [⟨none⟩, ⟨some ⟨none⟩⟩,
                      ⟨some ⟨some [⟨none⟩, ⟨some ⟨some " ab "⟩⟩]⟩⟩]⟩]⟩]⟩⟩]⟩⟩

end DocAnalyzer

section
attribute [local semireducible] Rat.add Rat.mul Rat.inv Rat.sub

namespace DocAnalyzer

/-- Claim C1 counterexample: on the empty string the statistics calculator
does NOT return 0 for every statistic — `lineCount` is 1, because Python's
`''.split('\n')` is `['']`. -/
theorem c1_empty_lineCount_ne_zero :
    (calculate_statistics "").lineCount ≠ 0 := by decide

/-- Claim C1 (amended): for the empty string input the statistics calculator
does not fail and returns 0 for every statistic except `lineCount`, which
is 1; reading time is 0. -/
theorem c1_empty_statistics :
    calculate_statistics "" =
      { characterCount := 0, characterCountNoSpaces := 0, wordCount := 0,
        lineCount := 1, paragraphCount := 0, sentenceCount := 0,
        averageWordLength := 0, averageSentenceLength := 0, readingTime := 0 } := by
  decide

/-- Claim C2 counterexample: the summary produced for the empty string is
not an empty result — it is the one-character string consisting of the
trailing period. -/
theorem c2_empty_summary_not_empty :
    generate_summary "" = "." ∧ generate_summary "" ≠ "" := by
  constructor
  · decide
  · decide

/-- Claim C2 (amended): the analysis pipeline, run on the empty string with
every option enabled, is total and resolves every degenerate sub-analysis
to a zero-valued or empty result, with two exceptions: the summary is the
one-character string `"."` and the statistics line count is 1. -/
theorem c2_empty_analyze :
    analyze_document "" ⟨true, true, true, true, true⟩ =
      ⟨some ⟨0, 0, 0, 1, 0, 0, 0, 0, 0⟩, some [], some ".", some [],
       some "unknown", ⟨[], [], false⟩⟩ := by
  decide

/-- Claim C3 counterexample: table extraction does NOT treat every missing
key as empty — a paragraph element whose `textRun` mapping lacks its text
content makes `_parse_table` raise a `KeyError` instead of yielding empty
cell text. -/
theorem c3_missing_run_content_raises :
    extract_tables docBad = Except.error "KeyError: content" := rfl

/-- Claim C6: link extraction on
`"Visit http://example.com and http://example.com again"` returns exactly
one entry, with occurrence count 2, domain `example.com` and scheme
`http`. -/
theorem c6_example_links :
    extract_links "Visit http://example.com and http://example.com again" =
      [{ url := "http://example.com", domain := "example.com",
         scheme := "http", count := 2 }] := by
  decide

/-- Helper: the four-way maximum is attained by one of its arguments. -/
theorem max4_choice (a b c d : Nat) :
    max (max (max a b) c) d = a ∨ max (max (max a b) c) d = b ∨
    max (max (max a b) c) d = c ∨ max (max (max a b) c) d = d := by
  rcases max_choice (max (max a b) c) d with h | h
  · rw [h]
    rcases max_choice (max a b) c with h2 | h2
    · rw [h2]
      rcases max_choice a b with h3 | h3
      · exact Or.inl h3
      · exact Or.inr (Or.inl h3)
    · exact Or.inr (Or.inr (Or.inl h2))
  · exact Or.inr (Or.inr (Or.inr h))

/-- Helper: the source `if/elif` chain agrees with the spec's
first-in-priority-order formulation on every count tuple. -/
theorem pick_eq_spec (a b c d : Nat) :
    languagePick a b c d = spec_languagePick a b c d := by
  have h5 := max4_choice a b c d
  have h1 : a ≤ max (max (max a b) c) d :=
    le_trans (le_trans (Nat.le_max_left a b) (Nat.le_max_left _ c)) (Nat.le_max_left _ d)
  have h2 : b ≤ max (max (max a b) c) d :=
    le_trans (le_trans (Nat.le_max_right a b) (Nat.le_max_left _ c)) (Nat.le_max_left _ d)
  have h3 : c ≤ max (max (max a b) c) d :=
    le_trans (Nat.le_max_right _ c) (Nat.le_max_left _ d)
  have h4 : d ≤ max (max (max a b) c) d := Nat.le_max_right _ d
  simp only [languagePick, spec_languagePick]
  split_ifs <;> first | rfl | omega

/-- Helper: the chain yields `unknown` exactly when the maximum count is
zero. -/
theorem pick_unknown_iff (a b c d : Nat) :
    (languagePick a b c d = "unknown") ↔ max (max (max a b) c) d = 0 := by
  have h5 := max4_choice a b c d
  simp only [languagePick]
  split_ifs <;> simp_all

/-- Claim C7: the language heuristic intersects the unique lowercased words
with the four fixed sets and returns the language of the largest
intersection: it agrees with the spec's priority-order formulation
(English, then Spanish, then French, then German on non-zero ties), and
returns `unknown` exactly when the maximum intersection size is zero. -/
theorem c7_language_priority (text : String) :
    detect_language text = spec_detect_language text ∧
    (detect_language text = "unknown" ↔ langMax text = 0) := by
  simp only [detect_language, spec_detect_language, langMax]
  exact ⟨pick_eq_spec _ _ _ _, pick_unknown_iff _ _ _ _⟩

/-- Claim C8: the structure analyzer reports a heading entry with text `s`,
zero-based line position `i` and level `l` exactly when line `i` has word
count strictly between 3 (exclusive) and 10 (inclusive), the immediately
following line exists and has word count above 10, `s` is the stripped
line, and `l` is 1 for an entirely upper-case line, else 2 for word count
at most 5, else 3. -/
theorem c8_heading_characterization (text : String) (s : String) (i : Nat) (l : Nat) :
    (Heading.mk s i l) ∈ (analyze_structure text).headings ↔
      (i + 1 < (linesOf text).length ∧
       3 < (pyWords (pyStrip ((linesOf text).getD i ""))).length ∧
       (pyWords (pyStrip ((linesOf text).getD i ""))).length ≤ 10 ∧
       10 < (pyWords (pyStrip ((linesOf text).getD (i + 1) ""))).length ∧
       s = pyStrip ((linesOf text).getD i "") ∧
       l = (if pyIsUpper s then 1 else if (pyWords s).length ≤ 5 then 2 else 3)) := by
  simp only [analyze_structure, List.mem_filterMap, List.mem_range]
  constructor
  · rintro ⟨j, hj, hf⟩
    split_ifs at hf with h1 h2
    simp only [Option.some.injEq, Heading.mk.injEq] at hf
    obtain ⟨hs, hi, hl⟩ := hf
    subst hi
    simp only [Bool.and_eq_true, decide_eq_true_eq] at h1 h2
    refine ⟨h2.1, h1.1, h1.2, h2.2, hs.symm, ?_⟩
    rw [← hl, ← hs]
    rfl
  · rintro ⟨hlen, h3, h10, hnext, hs, hl⟩
    refine ⟨i, by omega, ?_⟩
    rw [if_pos, if_pos]
    · subst hs
      congr 1
      rw [hl]
      rfl
    · simp only [Bool.and_eq_true, decide_eq_true_eq]
      exact ⟨hlen, hnext⟩
    · simp only [Bool.and_eq_true, decide_eq_true_eq]
      exact ⟨h3, h10⟩

/-- Witness for C8: on a two-line text whose first line has 4 words and
whose second line has 11, line 0 is reported as a heading at level 2. -/
theorem c8_heading_characterization_witness :
    Heading.mk "One two three four" 0 2 ∈
      (analyze_structure "One two three four\na b c d e f g h i j k").headings :=
  (c8_heading_characterization "One two three four\na b c d e f g h i j k"
    "One two three four" 0 2).mpr (by decide)

/-- Claim C4: when the retained-sentence count is at most the maximum, the
summary is all retained sentences, in original order, joined by `". "`
with a single trailing period, and the scoring branch is not taken. -/
theorem c4_summary_no_scoring (text : String) (maxS : Nat)
    (h : (retained_sentences text).length ≤ maxS) :
    generate_summary text maxS = String.intercalate ". " (retained_sentences text) ++ "." := by
  unfold generate_summary
  rw [if_pos h]

/-- Witness for C4: a text with one retained sentence (and one too-short
segment) summarizes to that sentence plus a period. -/
theorem c4_summary_no_scoring_witness :
    (retained_sentences "This is a reasonably long sentence indeed. Tiny.").length ≤ 5 ∧
    generate_summary "This is a reasonably long sentence indeed. Tiny." 5 =
      String.intercalate ". "
        (retained_sentences "This is a reasonably long sentence indeed. Tiny.") ++ "." :=
  ⟨by decide, c4_summary_no_scoring "This is a reasonably long sentence indeed. Tiny." 5 (by decide)⟩

/-- Helper: inserting grows the length by one. -/
theorem length_insertDescByCount (x : String × Nat) (l : List (String × Nat)) :
    (insertDescByCount x l).length = l.length + 1 := by
  induction l with
  | nil => rfl
  | cons y ys ih =>
    unfold insertDescByCount
    split_ifs
    · simp
    · simp [ih]

/-- Helper: folding insertions adds the folded list's length. -/
theorem length_foldl_insert (l acc : List (String × Nat)) :
    (l.foldl (fun acc x => insertDescByCount x acc) acc).length = acc.length + l.length := by
  induction l generalizing acc with
  | nil => simp
  | cons y ys ih =>
    simp only [List.foldl_cons]
    rw [ih, length_insertDescByCount]
    simp only [List.length_cons]
    omega

/-- Helper: the stable descending sort preserves length. -/
theorem length_sortDescByCount (l : List (String × Nat)) :
    (sortDescByCount l).length = l.length := by
  unfold sortDescByCount
  rw [length_foldl_insert]
  simp

/-- Helper: members of an insertion come from the inserted item or the
list. -/
theorem mem_insertDescByCount (y x : String × Nat) (l : List (String × Nat)) :
    y ∈ insertDescByCount x l → y = x ∨ y ∈ l := by
  induction l with
  | nil =>
    intro h
    simp only [insertDescByCount, List.mem_singleton] at h
    exact Or.inl h
  | cons z zs ih =>
    intro h
    simp only [insertDescByCount] at h
    by_cases hc : x.2 > z.2
    · rw [if_pos hc] at h
      rcases List.mem_cons.mp h with h2 | h2
      · exact Or.inl h2
      · exact Or.inr h2
    · rw [if_neg hc] at h
      rcases List.mem_cons.mp h with h2 | h2
      · exact Or.inr (List.mem_cons.mpr (Or.inl h2))
      · rcases ih h2 with h3 | h3
        · exact Or.inl h3
        · exact Or.inr (List.mem_cons.mpr (Or.inr h3))

/-- Helper: members of the insertion fold come from the accumulator or the
folded list. -/
theorem mem_foldl_insert (y : String × Nat) (l : List (String × Nat)) :
    ∀ acc, y ∈ l.foldl (fun acc x => insertDescByCount x acc) acc → y ∈ acc ∨ y ∈ l := by
  induction l with
  | nil => exact fun acc h => Or.inl h
  | cons z zs ih =>
    intro acc h
    simp only [List.foldl_cons] at h
    rcases ih (insertDescByCount z acc) h with h2 | h2
    · rcases mem_insertDescByCount y z acc h2 with h3 | h3
      · exact Or.inr (by simp [h3])
      · exact Or.inl h3
    · exact Or.inr (by simp [h2])

/-- Helper: the stable descending sort is a sublist permutation for
membership purposes. -/
theorem mem_sortDescByCount (y : String × Nat) (l : List (String × Nat)) :
    y ∈ sortDescByCount l → y ∈ l := by
  intro h
  unfold sortDescByCount at h
  rcases mem_foldl_insert y l [] h with h2 | h2
  · cases h2
  · exact h2

/-- Helper: deduplicated elements come from the original list. -/
theorem mem_dedupSeen {α : Type} [BEq α] (x : α) (l : List α) :
    ∀ seen, x ∈ dedupSeen l seen → x ∈ l := by
  induction l with
  | nil => intro seen h; cases h
  | cons z zs ih =>
    intro seen h
    unfold dedupSeen at h
    split_ifs at h
    · exact List.mem_cons_of_mem z (ih _ h)
    · rcases List.mem_cons.mp h with h2 | h2
      · simp [h2]
      · exact List.mem_cons_of_mem z (ih _ h2)

/-- Helper: half-to-even rounding stays inside `[0, 10000]` there. -/
theorem roundHalfEven_bounds (y : ℚ) (h0 : 0 ≤ y) (h1 : y ≤ 10000) :
    0 ≤ roundHalfEven y ∧ roundHalfEven y ≤ 10000 := by
  unfold roundHalfEven
  have hf0 : 0 ≤ ⌊y⌋ := Int.floor_nonneg.mpr h0
  have hfle : (⌊y⌋ : ℚ) ≤ y := Int.floor_le y
  split_ifs with hhalf heven
  · refine ⟨hf0, ?_⟩
    have : (⌊y⌋ : ℚ) ≤ 10000 := le_trans hfle h1
    exact_mod_cast this
  · refine ⟨by omega, ?_⟩
    have hy : (⌊y⌋ : ℚ) = y - 1 / 2 := by linarith
    have : (⌊y⌋ : ℚ) < 10000 := by rw [hy]; linarith
    have h2 : ⌊y⌋ < (10000 : ℤ) := by exact_mod_cast this
    omega
  · rw [round_eq]
    constructor
    · exact Int.floor_nonneg.mpr (by linarith)
    · have : ⌊y + 1 / 2⌋ < 10001 := by
        rw [Int.floor_lt]
        push_cast
        linarith
      omega

/-- Helper: rounding to two decimals stays inside `[0, 100]` there. -/
theorem pyRound2_bounds (q : ℚ) (h0 : 0 ≤ q) (h1 : q ≤ 100) :
    0 ≤ pyRound2 q ∧ pyRound2 q ≤ 100 := by
  obtain ⟨hr0, hr1⟩ := roundHalfEven_bounds (q * 100) (by positivity) (by linarith)
  unfold pyRound2
  constructor
  · exact div_nonneg (by exact_mod_cast hr0) (by norm_num)
  · rw [div_le_iff₀ (by norm_num : (0:ℚ) < 100)]
    have : ((roundHalfEven (q * 100)) : ℚ) ≤ 10000 := by exact_mod_cast hr1
    linarith

/-- Helper: a frequency between 1 and the token total yields a relevance in
`[0, 100]`. -/
theorem relevance_bounds (c n : Nat) (h1 : 1 ≤ c) (h2 : c ≤ n) :
    0 ≤ pyRound2 ((c : ℚ) / (n : ℚ) * 100) ∧ pyRound2 ((c : ℚ) / (n : ℚ) * 100) ≤ 100 := by
  have hn : (0 : ℚ) < (n : ℚ) := by
    have : 1 ≤ n := le_trans h1 h2
    exact_mod_cast Nat.lt_of_lt_of_le Nat.zero_lt_one this
  have hc : (c : ℚ) ≤ (n : ℚ) := by exact_mod_cast h2
  have hdiv : (c : ℚ) / (n : ℚ) ≤ 1 := div_le_one_of_le₀ hc hn.le
  have hdiv0 : 0 ≤ (c : ℚ) / (n : ℚ) := by positivity
  exact pyRound2_bounds _ (by linarith) (by linarith)

/-- Claim C5: keyword extraction returns at most top-N entries and at most
one per distinct retained token, every relevance lies in `[0, 100]`, and
zero retained tokens yield the empty sequence with no division error. -/
theorem c5_keyword_bounds (text : String) (top_n : Nat) :
    (extract_keywords text top_n).length ≤ top_n ∧
    (extract_keywords text top_n).length ≤ (dedupFirstSeen (retainedTokens text)).length ∧
    (∀ k ∈ extract_keywords text top_n, 0 ≤ k.relevance ∧ k.relevance ≤ 100) ∧
    (retainedTokens text = [] → extract_keywords text top_n = []) := by
  refine ⟨?_, ?_, ?_, ?_⟩
  · simp only [extract_keywords, List.length_map, List.length_take]
    exact min_le_left _ _
  · simp only [extract_keywords, List.length_map, List.length_take, length_sortDescByCount]
    exact min_le_right _ _
  · intro k hk
    simp only [extract_keywords, List.mem_map] at hk
    obtain ⟨p, hp, hkp⟩ := hk
    have hp2 := List.mem_of_mem_take hp
    have hp3 := mem_sortDescByCount _ _ hp2
    simp only [List.mem_map] at hp3
    obtain ⟨w, hw, hpw⟩ := hp3
    have hwmem : w ∈ retainedTokens text := mem_dedupSeen w _ _ hw
    have hcpos : 0 < (retainedTokens text).count w := List.count_pos_iff.mpr hwmem
    have hcle : (retainedTokens text).count w ≤ (retainedTokens text).length :=
      List.count_le_length w _
    rw [← hkp, ← hpw]
    exact relevance_bounds _ _ hcpos hcle
  · intro h
    simp only [extract_keywords, h]
    simp [dedupFirstSeen, dedupSeen, sortDescByCount]

/-- Witness for C5: on a four-token text the returned entries obey the
bounds, exercised at the top entry. -/
theorem c5_keyword_bounds_witness :
    (Keyword.mk "alpha" 2 50) ∈ extract_keywords "alpha beta alpha gamma" 2 ∧
    0 ≤ (Keyword.mk "alpha" 2 50).relevance ∧ (Keyword.mk "alpha" 2 50).relevance ≤ 100 :=
  ⟨by decide,
   (c5_keyword_bounds "alpha beta alpha gamma" 2).2.2.1 (Keyword.mk "alpha" 2 50) (by decide)⟩

/-- Helper: dropping while a predicate holds skips a fully satisfying
prefix. -/
theorem dropWhile_append_of_all {α : Type} (p : α → Bool) (w l : List α)
    (hw : w.all p = true) : (w ++ l).dropWhile p = l.dropWhile p := by
  induction w with
  | nil => rfl
  | cons c cs ih =>
    simp only [List.all_cons, Bool.and_eq_true] at hw
    simp only [List.cons_append, List.dropWhile_cons, hw.1, if_true]
    exact ih hw.2

/-- Helper: when the first list survives the drop, an appended suffix is
untouched. -/
theorem dropWhile_append_of_ne_nil {α : Type} (p : α → Bool) (l w : List α)
    (hl : l.dropWhile p ≠ []) : (l ++ w).dropWhile p = l.dropWhile p ++ w := by
  induction l with
  | nil => exact absurd rfl hl
  | cons c cs ih =>
    by_cases hc : p c
    · simp only [List.cons_append, List.dropWhile_cons, hc, if_true] at *
      exact ih hl
    · simp only [List.cons_append, List.dropWhile_cons, hc] at *
      simp

/-- Helper: stripping ignores an all-whitespace prefix. -/
theorem stripL_append_left (w l : List Char) (hw : w.all isPySpace = true) :
    stripL (w ++ l) = stripL l := by
  unfold stripL
  rw [dropWhile_append_of_all isPySpace w l hw]

/-- Helper: stripping ignores an all-whitespace suffix. -/
theorem stripL_append_right (l w : List Char) (hw : w.all isPySpace = true) :
    stripL (l ++ w) = stripL l := by
  unfold stripL
  by_cases h : l.dropWhile isPySpace = []
  · have hall : ∀ x ∈ l, isPySpace x = true := List.dropWhile_eq_nil_iff.mp h
    have hl : l.all isPySpace = true := List.all_eq_true.mpr hall
    rw [dropWhile_append_of_all isPySpace l w hl, h]
    have hw2 : w.dropWhile isPySpace = [] :=
      List.dropWhile_eq_nil_iff.mpr (List.all_eq_true.mp hw)
    rw [hw2]
  · rw [dropWhile_append_of_ne_nil isPySpace l w h, List.reverse_append]
    rw [dropWhile_append_of_all isPySpace w.reverse (l.dropWhile isPySpace).reverse
      (by rw [List.all_reverse]; exact hw)]

/-- Claim C9 counterexample: appending a line-feed character does NOT
increase the line count — the text is stripped before the line split, so
both `"abc"` and `"abc\n"` have line count 1. -/
theorem c9_newline_does_not_add_line :
    ¬((calculate_statistics ("abc" ++ "\n")).lineCount =
      (calculate_statistics "abc").lineCount + 1) := by
  decide

/-- Claim C9 (amended): appending a line-feed character to any text leaves
every statistic, the line count included, unchanged, because the text is
stripped of leading and trailing whitespace before any splitting. -/
theorem c9_trailing_newline_invariant (t : String) :
    calculate_statistics (t ++ "\n") = calculate_statistics t := by
  unfold calculate_statistics
  congr 1
  show stripL (String.toList (t ++ "\n")) = stripL t.toList
  have : (t ++ "\n").toList = t.toList ++ "\n".toList := String.data_append t "\n"
  rw [this, stripL_append_right _ _ (by decide)]

/-- Claim C10: the statistics calculator is invariant under any
all-whitespace leading and trailing padding, because the input is stripped
before any counting. -/
theorem c10_whitespace_padding_invariant (t wl wr : String)
    (hl : wl.toList.all isPySpace = true) (hr : wr.toList.all isPySpace = true) :
    calculate_statistics (wl ++ t ++ wr) = calculate_statistics t := by
  unfold calculate_statistics
  congr 1
  show stripL (String.toList (wl ++ t ++ wr)) = stripL t.toList
  have : (wl ++ t ++ wr).toList = wl.toList ++ t.toList ++ wr.toList := by
    show ((wl ++ t) ++ wr).data = wl.data ++ t.data ++ wr.data
    rw [String.data_append, String.data_append]
  rw [this, List.append_assoc, stripL_append_left _ _ hl, stripL_append_right _ _ hr]

/-- Witness for C10: padding `"hi there"` with a leading space and a
trailing newline-space pair changes no statistic. -/
theorem c10_whitespace_padding_invariant_witness :
    (" ".toList.all isPySpace = true) ∧ ("\n ".toList.all isPySpace = true) ∧
    calculate_statistics (" " ++ "hi there" ++ "\n ") = calculate_statistics "hi there" :=
  ⟨by decide, by decide,
   c10_whitespace_padding_invariant "hi there" " " "\n " (by decide) (by decide)⟩

/-- Helper: mapping a function that succeeds on every element succeeds. -/
theorem mapM_ok {α β : Type} (f : α → Except String β) (l : List α)
    (h : ∀ x ∈ l, ∃ y, f x = Except.ok y) : ∃ ys, l.mapM f = Except.ok ys := by
  induction l with
  | nil => exact ⟨[], rfl⟩
  | cons a as ih =>
    obtain ⟨y, hy⟩ := h a (List.mem_cons_self a as)
    obtain ⟨ys, hys⟩ := ih (fun x hx => h x (List.mem_cons_of_mem a hx))
    refine ⟨y :: ys, ?_⟩
    rw [List.mapM_cons, hy, hys]
    rfl

/-- Helper: a run-ok paragraph element yields its text pieces. -/
theorem textRunContent_ok : ∀ (e : ParagraphElement), runOk e = true →
    ∃ v, textRunContent e = Except.ok v
  | ⟨none⟩, _ => ⟨[], rfl⟩
  | ⟨some ⟨some s⟩⟩, _ => ⟨[s], rfl⟩
  | ⟨some ⟨none⟩⟩, h => Bool.noConfusion h

/-- Helper: a run-ok cell-content entry yields its text pieces. -/
theorem cellContentPieces_ok : ∀ (c : CellContent), cellContentOk c = true →
    ∃ v, cellContentPieces c = Except.ok v
  | ⟨none⟩, _ => ⟨[], rfl⟩
  | ⟨some ⟨els⟩⟩, h => by
    simp only [cellContentOk, paraOk, List.all_eq_true] at h
    obtain ⟨ys, hys⟩ := mapM_ok textRunContent (Option.getD els [])
      (fun x hx => textRunContent_ok x (h x hx))
    refine ⟨ys.flatten, ?_⟩
    simp only [cellContentPieces]
    rw [hys]
    rfl

/-- Helper: a run-ok cell yields its text. -/
theorem parseCellText_ok (c : TableCell) (h : cellOk c = true) :
    ∃ v, parseCellText c = Except.ok v := by
  simp only [cellOk, List.all_eq_true] at h
  obtain ⟨ys, hys⟩ := mapM_ok cellContentPieces (c.content.getD [])
    (fun x hx => cellContentPieces_ok x (h x hx))
  refine ⟨pyStrip (String.join ys.flatten), ?_⟩
  simp only [parseCellText]
  rw [hys]
  rfl

/-- Helper: a run-ok row yields its cell texts. -/
theorem parseRow_ok (r : TableRow) (h : rowOk r = true) :
    ∃ v, parseRow r = Except.ok v := by
  simp only [rowOk, List.all_eq_true] at h
  exact mapM_ok parseCellText (r.tableCells.getD []) (fun x hx => parseCellText_ok x (h x hx))

/-- Helper: a run-ok table yields its table data. -/
theorem parse_table_ok (t : Table) (h : tableOk t = true) :
    ∃ v, parse_table t = Except.ok v := by
  simp only [tableOk, List.all_eq_true] at h
  obtain ⟨ys, hys⟩ := mapM_ok parseRow (t.tableRows.getD []) (fun x hx => parseRow_ok x (h x hx))
  refine ⟨⟨ys.length, (ys.headD []).length, ys⟩, ?_⟩
  simp only [parse_table]
  rw [hys]
  rfl

/-- Claim C3 (amended): on every document tree in which each present
textRun carries its text content, table extraction treats every other
missing key (no body, no content, no tableRows, no tableCells, a cell
content without paragraph, a paragraph without elements, an element
without textRun) as empty and never raises; only a textRun lacking its
text content raises a KeyError. -/
theorem c3_tables_ok_of_runs_ok (doc : DocumentData) (h : docRunsOk doc = true) :
    ∃ ts, extract_tables doc = Except.ok ts := by
  rcases doc with ⟨body⟩
  cases body with
  | none => exact ⟨[], rfl⟩
  | some b =>
    cases hb : b.content with
    | none =>
      refine ⟨[], ?_⟩
      simp only [extract_tables, hb]
    | some es =>
      simp only [docRunsOk, hb, List.all_eq_true] at h
      have hall : ∀ t ∈ es.filterMap (fun e => e.table), tableOk t = true := by
        intro t ht
        rcases List.mem_filterMap.mp ht with ⟨e, he, het⟩
        have := h e he
        rw [het] at this
        exact this
      obtain ⟨ys, hys⟩ := mapM_ok parse_table (es.filterMap (fun e => e.table))
        (fun t ht => parse_table_ok t (hall t ht))
      refine ⟨ys, ?_⟩
      simp only [extract_tables, hb]
      exact hys

/-- Witness for C3: the document tree with a missing key at every other
level is runs-ok and extracts without error. -/
theorem c3_tables_ok_witness :
    docRunsOk docSparse = true ∧ ∃ ts, extract_tables docSparse = Except.ok ts :=
  ⟨by decide, c3_tables_ok_of_runs_ok docSparse (by decide)⟩

end DocAnalyzer

end
